/-
Verification of the FALCON-Z orchestration engine (ENHANCE-PET/FALCON).

Shallow embedding of the Python sources under falconz/ (the active package
wired to the CLI driver):
  - falconz/image_processing.py   (start-frame selector, registration commands,
                                   alignment scheduler)
  - falconz/file_utilities.py     (sorted glob listing, numeric sort key,
                                   resource estimator)
  - falconz/image_conversion.py   (merge3d)
  - falconz/falconz.py            (driver: main)
  - falconz/constants.py          (thresholds, prefixes, minima)

Modelling conventions:
  - Files are modelled by their basenames (every listing compared here lives in
    a single directory, so sorting full paths that share the directory prefix
    orders them exactly as their basenames).
  - Python string comparison (code-point lexicographic) is modelled by the
    lexicographic order on `String.data`, i.e. on `List Char`.
  - Python floats are modelled by rationals.
  - A subprocess environment maps a command string to the pair
    (returncode, stderr) that `subprocess.run` would observe.
  - Nondeterministic completion order of a worker pool is modelled by passing
    the resulting directory listing as an explicit argument, quantified over
    permutations of the set of files the workers write.
-/
import Mathlib

namespace Falconz

/-! ### Python string order (code-point lexicographic, as `sorted` uses) -/

/-- Python string `<`: lexicographic on the code points, i.e. on `data`. -/
def pyStrLt (a b : String) : Prop := a.data < b.data

/-- Python string `<=`: lexicographic on the code points, i.e. on `data`. -/
def pyStrLe (a b : String) : Prop := a.data ≤ b.data

instance : DecidableRel pyStrLt := fun a b => inferInstanceAs (Decidable (a.data < b.data))

instance : DecidableRel pyStrLe := fun a b => inferInstanceAs (Decidable (a.data ≤ b.data))

instance : IsTotal String pyStrLe := ⟨fun a b => le_total a.data b.data⟩

instance : IsTrans String pyStrLe := ⟨fun _ _ _ hab hbc => le_trans hab hbc⟩

instance : IsAntisymm String pyStrLe :=
  ⟨fun a b hab hba => by
    cases a; cases b
    exact congrArg String.mk (le_antisymm hab hba)⟩

/-- Descending comparison on rationals, for `sorted(..., reverse=True)`. -/
instance : DecidableRel (fun a b : ℚ => b ≤ a) := fun a b => inferInstanceAs (Decidable (b ≤ a))

/-! ### file_utilities.py -/

/-- A glob pattern of the shape `pre*suf` matches a name (fnmatch semantics for
a single `*`): the name starts with `pre`, ends with `suf`, and is long enough
that the two do not overlap. All patterns used by falconz have this shape
(`*.nii`, `*.nii.gz`, `ncc_*.nii.gz`, `moco_*`, `*rigid.mat`, ...). -/
def glob_match (pre suf : String) (name : String) : Bool :=
  pre.data.isPrefixOf name.data
    && suf.data.isSuffixOf name.data
    && decide (pre.data.length + suf.data.length ≤ name.data.length)

/-- Embedding of `file_utilities.get_files` (src/falconz/file_utilities.py:146-157):
`sorted(glob.glob(os.path.join(directory_path, wildcard)))`. The directory is
modelled by the list of basenames it contains, in arbitrary on-disk order; the
result is the matching names in Python sorted order. -/
def get_files (directory_listing : List String) (pre suf : String) : List String :=
  List.insertionSort pyStrLe (directory_listing.filter (glob_match pre suf))

/-- Embedding of `file_utilities.numeric_sort_key` (src/falconz/file_utilities.py:75-88):
the integer value of the first maximal digit run of the basename, 0 when the
name holds no digit. -/
def numeric_sort_key (file_path : String) : ℕ :=
  let digits := (file_path.data.dropWhile (fun c => !c.isDigit)).takeWhile Char.isDigit
  digits.foldl (fun n c => 10 * n + (c.toNat - '0'.toNat)) 0

/-- Sorting a listing by `numeric_sort_key`: the "natural-numeric filename
order" the specification describes (spec section 4.G step 4). This is the
spec-side definition; the code's `merge3d` sorts lexicographically instead. -/
def natural_numeric_sorted (listing : List String) : List String :=
  List.insertionSort (fun a b => numeric_sort_key a ≤ numeric_sort_key b) listing

instance : DecidableRel (fun a b : String => numeric_sort_key a ≤ numeric_sort_key b) :=
  fun a b => inferInstanceAs (Decidable (numeric_sort_key a ≤ numeric_sort_key b))

/-! ### constants.py (active constant file wired to the driver) -/

/-- Constant `constants.NCC_THRESHOLD` (src/falconz/constants.py:62). -/
def NCC_THRESHOLD : ℚ := 1/2

/-- Constant `constants.MOCO_PREFIX = 'moco_'` (src/falconz/constants.py:66). -/
def MOCO_TAG : String := "moco_"

/-- Constant `constants.COST_FUNCTION` (src/falconz/constants.py:82). -/
def COST_FUNCTION : String := "NCC 2x2x2"

/-- Constant `constants.MINIMUM_RAM_REQUIRED_RIGID` in GB (src/falconz/constants.py:51). -/
def MINIMUM_RAM_REQUIRED_RIGID : ℤ := 4

/-- Constant `constants.MINIMUM_THREADS_REQUIRED_RIGID` (src/falconz/constants.py:54). -/
def MINIMUM_THREADS_REQUIRED_RIGID : ℤ := 2

/-! ### Start-frame selector (image_processing.py:412-478) -/

/-- Python `os.path.basename(f).split(".")[0]`: the part of the basename before the
first dot (the whole name when it has no dot). -/
def stem (filename : String) : String := ⟨filename.data.takeWhile (fun c => c ≠ '.')⟩

/-- The output filename `calc_voxelwise_ncc_images` writes for a candidate
(src/falconz/image_processing.py:437-439): `ncc_<stem>.nii.gz`. -/
def ncc_image_name (candidate : String) : String := "ncc_" ++ stem candidate ++ ".nii.gz"

/-- The anchor `max_observed_ncc` (src/falconz/image_processing.py:473):
`sum(sorted(mean_intensities, reverse=True)[:3]) / 3`. Note the divisor is the
literal 3 regardless of how many intensities exist. -/
def max_observed_ncc (mean_intensities : List ℚ) : ℚ :=
  ((List.insertionSort (fun a b : ℚ => b ≤ a) mean_intensities).take 3).sum / 3

/-- Spec-side anchor, from the spec's words (sections 4.E step 4 and its edge
case): the arithmetic mean of the top 3 values of `m_c`; with fewer than 3
candidates, the maximum of the `m_c` values. -/
def spec_anchor (mean_intensities : List ℚ) : ℚ :=
  if 3 ≤ mean_intensities.length then
    ((List.insertionSort (fun a b : ℚ => b ≤ a) mean_intensities).take 3).sum / 3
  else
    mean_intensities.foldr max 0

/-- Embedding of `image_processing.determine_candidate_frames`
(src/falconz/image_processing.py:448-478). The worker pool writes one NCC
image per candidate into the fresh `ncc-images` directory; its return value is
discarded and the directory is re-listed with `get_files(ncc_dir,
"ncc_*.nii.gz")`. `ncc_dir_listing` is that directory's content in on-disk
order (nondeterministic, since the pool writes in completion order); `njobs`
only sizes the pool and influences nothing else. `μ` gives `calc_mean_intensity`
of an NCC image file. The final `candidate_files[candidate_frames[0]]` raises
`IndexError` when no index passes the threshold, modelled by `none`. -/
def determine_candidate_frames (candidate_files : List String) (μ : String → ℚ)
    (njobs : ℕ) (ncc_dir_listing : List String) : Option String :=
  let _pool_size := njobs
  let ncc_images := get_files ncc_dir_listing "ncc_" ".nii.gz"
  let mean_intensities := ncc_images.map μ
  let anchor := max_observed_ncc mean_intensities
  let candidate_frames :=
    (mean_intensities.enum.filter (fun p => decide (NCC_THRESHOLD * anchor < p.2))).map Prod.fst
  candidate_frames.head?.bind (fun i => candidate_files.get? i)

/-- Python `lst[i]` with negative-index semantics (`lst[-k]` is
`lst[len - k]`), `none` on IndexError. -/
def py_list_index (l : List String) (i : ℤ) : Option String :=
  if 0 ≤ i then l.get? i.toNat
  else if (-i).toNat ≤ l.length then l.get? (l.length - (-i).toNat) else none

/-- The automatic start-frame path of `falconz.main`
(src/falconz/falconz.py:202-215): pick the reference by Python indexing,
remove it (first occurrence) from a copy of the listing to form the
candidates, run the selector, and convert the returned filename back to an
index with `org_nifti_files.index(...)` (ValueError, modelled `none`, when the
returned name is not in the listing). -/
def main_auto_start_frame (org_nifti_files : List String) (reference_frame_index : ℤ)
    (μ : String → ℚ) (njobs : ℕ) (ncc_dir_listing : List String) : Option ℕ :=
  (py_list_index org_nifti_files reference_frame_index).bind fun reference_file =>
  let candidate_frames := org_nifti_files.erase reference_file
  (determine_candidate_frames candidate_frames μ njobs ncc_dir_listing).bind
    fun start_frame_file =>
      if start_frame_file ∈ org_nifti_files then
        some (org_nifti_files.indexOf start_frame_file)
      else none

/-- Spec-side start frame, from the spec's words (section 4.E steps 1-5): the
index, in the full original sequence, of the first candidate (reference
excluded, index order preserved) whose mean clipped-NCC intensity `m_c`
strictly exceeds `τ · M`. -/
def spec_start_frame (org_nifti_files : List String) (reference_frame_index : ℤ)
    (μ : String → ℚ) : Option ℕ :=
  (py_list_index org_nifti_files reference_frame_index).bind fun reference_file =>
  let candidates := org_nifti_files.erase reference_file
  let m : String → ℚ := fun c => μ (ncc_image_name c)
  let anchor := max_observed_ncc (candidates.map m)
  (candidates.find? (fun c => decide (NCC_THRESHOLD * anchor < m c))).bind
    fun c =>
      if c ∈ org_nifti_files then some (org_nifti_files.indexOf c) else none

/-! ### Registration commands (image_processing.py, class ImageRegistration)

The source interpolates `re.escape`d paths into one shell command string; the
commands are modelled as those strings, with the binary path a parameter
(`GREEDY_PATH` is computed from the install location at import time). -/

/-- Python `re.escape` (3.7+ behavior): every character other than an ASCII letter, a
digit or the underscore is preceded by a backslash. -/
def re_escape (s : String) : String :=
  ⟨s.data.foldr (fun c acc => if c.isAlphanum || c = '_' then c :: acc else '\\' :: c :: acc) []⟩

/-- The transform-file names set by `ImageRegistration.set_moving_image`
(src/falconz/image_processing.py:88-97), keyed off the full moving-image
filename, extension included. -/
structure TransformFiles where
  rigid : String
  affine : String
  warp : String
  inverse_warp : String
deriving DecidableEq

/-- The `set_moving_image` transform-file naming. -/
def transform_files_of (moving_img_filename : String) : TransformFiles :=
  { rigid := moving_img_filename ++ "_rigid.mat"
    affine := moving_img_filename ++ "_affine.mat"
    warp := moving_img_filename ++ "_warp.nii.gz"
    inverse_warp := moving_img_filename ++ "_inverse_warp.nii.gz" }

/-- The `mask_cmd` fragment: `-gm <escaped mask>` when a fixed mask is set, the
empty string otherwise (the driver never sets one). -/
def mask_cmd (fixed_mask : Option String) : String :=
  match fixed_mask with
  | some m => "-gm " ++ re_escape m
  | none => ""

/-- The rigid registration command (src/falconz/image_processing.py:108-112). -/
def rigid_cmd (greedy_path fixed_img moving_img : String) (fixed_mask : Option String)
    (multi_resolution_iterations : String) (tf : TransformFiles) : String :=
  greedy_path ++ " -d 3 -a -i " ++ re_escape fixed_img ++ " " ++ re_escape moving_img
    ++ " " ++ mask_cmd fixed_mask ++ " -ia-image-centers -dof 6" ++ " -o "
    ++ re_escape tf.rigid ++ " -n " ++ multi_resolution_iterations ++ " -m " ++ COST_FUNCTION

/-- The affine registration command (src/falconz/image_processing.py:127-131),
identical to rigid but 12 degrees of freedom and the affine output file. -/
def affine_cmd (greedy_path fixed_img moving_img : String) (fixed_mask : Option String)
    (multi_resolution_iterations : String) (tf : TransformFiles) : String :=
  greedy_path ++ " -d 3 -a -i " ++ re_escape fixed_img ++ " " ++ re_escape moving_img
    ++ " " ++ mask_cmd fixed_mask ++ " -ia-image-centers -dof 12" ++ " -o "
    ++ re_escape tf.affine ++ " -n " ++ multi_resolution_iterations ++ " -m " ++ COST_FUNCTION

/-- The deformable registration command proper
(src/falconz/image_processing.py:148-150): initialized with `-it` from the
affine matrix, emitting the warp and inverse warp. -/
def deformable_reg_cmd (greedy_path fixed_img moving_img : String) (fixed_mask : Option String)
    (multi_resolution_iterations : String) (tf : TransformFiles) : String :=
  greedy_path ++ " -d 3 -m " ++ COST_FUNCTION ++ " -i " ++ re_escape fixed_img ++ " "
    ++ re_escape moving_img ++ " " ++ mask_cmd fixed_mask ++ " -it " ++ re_escape tf.affine
    ++ " -o " ++ re_escape tf.warp ++ " -oinv " ++ re_escape tf.inverse_warp
    ++ " -sv -n " ++ multi_resolution_iterations

/-- The registration commands run for one paradigm, in execution order
(`ImageRegistration.registration`, src/falconz/image_processing.py:159-175;
`deformable` first calls `self.affine()` and then runs the deformable step).
An unknown paradigm makes the source call `sys.exit`; no command runs. -/
def registration_invocations (registration_type : String)
    (greedy_path fixed_img moving_img : String) (fixed_mask : Option String)
    (multi_resolution_iterations : String) : List String :=
  let tf := transform_files_of moving_img
  if registration_type = "rigid" then
    [rigid_cmd greedy_path fixed_img moving_img fixed_mask multi_resolution_iterations tf]
  else if registration_type = "affine" then
    [affine_cmd greedy_path fixed_img moving_img fixed_mask multi_resolution_iterations tf]
  else if registration_type = "deformable" then
    [affine_cmd greedy_path fixed_img moving_img fixed_mask multi_resolution_iterations tf,
     deformable_reg_cmd greedy_path fixed_img moving_img fixed_mask
       multi_resolution_iterations tf]
  else []

/-- Embedding of `ImageRegistration._build_cmd` (src/falconz/image_processing.py:203-230):
the resample command, `-r` transform arguments appended in the order given. -/
def build_cmd (greedy_path fixed_img moving_img resampled_moving_img : String)
    (segmentation resampled_seg : String) (transform_files : List String) : String :=
  let cmd := greedy_path ++ " -d 3 -rf " ++ re_escape fixed_img ++ " -ri LINEAR -rm "
    ++ re_escape moving_img ++ " " ++ re_escape resampled_moving_img
  let cmd := if segmentation ≠ "" ∧ resampled_seg ≠ "" then
      cmd ++ " -ri LABEL 0.2vox -rm " ++ re_escape segmentation ++ " "
        ++ re_escape resampled_seg
    else cmd
  transform_files.foldl (fun c t => c ++ " -r " ++ re_escape t) cmd

/-- Embedding of `ImageRegistration.resample` (src/falconz/image_processing.py:177-201):
the transform list per paradigm; for deformable the warp comes before the
affine on the command line. An unknown paradigm leaves `cmd_to_run` unbound
(UnboundLocalError), modelled by `none`. -/
def resample_cmd (registration_type : String)
    (greedy_path fixed_img moving_img resampled_moving_img : String)
    (segmentation resampled_seg : String) (tf : TransformFiles) : Option String :=
  if registration_type = "rigid" then
    some (build_cmd greedy_path fixed_img moving_img resampled_moving_img
      segmentation resampled_seg [tf.rigid])
  else if registration_type = "affine" then
    some (build_cmd greedy_path fixed_img moving_img resampled_moving_img
      segmentation resampled_seg [tf.affine])
  else if registration_type = "deformable" then
    some (build_cmd greedy_path fixed_img moving_img resampled_moving_img
      segmentation resampled_seg [tf.warp, tf.affine])
  else none

/-! ### Alignment scheduler (image_processing.py:233-289) -/

/-- What one `subprocess.run(cmd, shell=True, capture_output=True)` call
observes: the command's exit code and its captured stderr. -/
def SubprocessEnv : Type := String → ℤ × String

/-- Embedding of `align_single_image` (src/falconz/image_processing.py:233-256): runs the
registration command(s) and the resample command. Every `subprocess.run`
result — exit code and stderr alike — is discarded, and the function returns
the constant 1. The resampled output path is
`os.path.join(moco_dir, MOCO_PREFIX + basename(moving_img))`. -/
def align_single_image (env : SubprocessEnv) (greedy_path fixed_img moving_img : String)
    (registration_type multi_resolution_iterations moco_dir : String) : ℤ :=
  let tf := transform_files_of moving_img
  let _registration_results :=
    (registration_invocations registration_type greedy_path fixed_img moving_img none
      multi_resolution_iterations).map env
  let _resample_result :=
    (resample_cmd registration_type greedy_path fixed_img moving_img
      (moco_dir ++ "/" ++ (MOCO_TAG ++ moving_img)) "" "" tf).map env
  1

/-- Embedding of `align` (src/falconz/image_processing.py:259-289): one task per moving
image; the dask results (always 1) only drive the progress bar. -/
def align (env : SubprocessEnv) (greedy_path fixed_img : String) (moving_imgs : List String)
    (registration_type multi_resolution_iterations moco_dir : String) : List ℤ :=
  moving_imgs.map (fun moving_img =>
    align_single_image env greedy_path fixed_img moving_img registration_type
      multi_resolution_iterations moco_dir)

/-- The driver around `align` (src/falconz/falconz.py:229-263): nothing
inspects the alignment outcomes; control always falls through to the cleanup
and merge sections and `main` returns normally, i.e. the process exit code is
0 regardless of any subprocess failure inside the jobs. -/
def main_alignment_exit_code (env : SubprocessEnv) (greedy_path fixed_img : String)
    (moving_imgs : List String)
    (registration_type multi_resolution_iterations moco_dir : String) : ℤ :=
  let _results := align env greedy_path fixed_img moving_imgs registration_type
    multi_resolution_iterations moco_dir
  0

/-! ### Ingestion (image_conversion.py / falconz.py:174-196) -/

/-- Modelled from the spec: the error taxonomy of the ingestion step (spec
section 4.C Errors). The class `NiftiConverterError` that
`falconz.main` imports from `falconz.image_conversion` is not present in the
sources here (only its caller is), so it is modelled from the spec. -/
inductive NiftiConverterError
  | InputMissing
  | UnsupportedFormat
  | InsufficientInput
  | ConverterFailure
deriving DecidableEq

/-- Modelled from the spec: the `NiftiConverter` normalization entry point
used by `falconz.main` (absent from the sources here; only its caller at
src/falconz/falconz.py:185 is present). The input directory is represented by
the canonical 3-D frame sequence it normalizes to; per the spec's decision
table (section 4.C), a sequence of exactly one 3-D volume fails with
`InsufficientInput` — motion correction needs at least 2 frames. -/
def nifti_converter (normalized_frames : List String) :
    Except NiftiConverterError (List String) :=
  if normalized_frames.length = 1 then .error .InsufficientInput
  else .ok normalized_frames

/-- Outcome of the standardization section of `main`. -/
inductive PipelineOutcome
  | exited (code : ℤ)
  | proceeded (frames : List String)
deriving DecidableEq

/-- The standardization section of `main` (src/falconz/falconz.py:184-196):
`NiftiConverterError` is caught, logged, and answered with `sys.exit(1)`;
otherwise the pipeline proceeds towards motion correction with the frames. -/
def main_standardization_step (normalized_frames : List String) : PipelineOutcome :=
  match nifti_converter normalized_frames with
  | .error _ => .exited 1
  | .ok frames => .proceeded frames

/-! ### Resource estimator (file_utilities.py:233-265) -/

/-- Python `round` (banker's rounding: ties to even). -/
def pyRound (q : ℚ) : ℤ :=
  let f := ⌊q⌋
  let r := q - f
  if r < 1/2 then f else if 1/2 < r then f + 1 else if 2 ∣ f then f else f + 1

/-- Embedding of `file_utilities.get_number_of_possible_jobs`
(src/falconz/file_utilities.py:233-265). `process_memory` is a GB count (the
callers pass the `MINIMUM_RAM_REQUIRED_*` constants), yet `min_memory`
rescales it to bytes while `available_memory` is rounded down to GB, and the
two are divided into each other; the machine state is `psutil`'s available
byte count and thread count. Python `//` is floor division (`Int.fdiv`). -/
def get_number_of_possible_jobs (process_memory process_threads : ℤ)
    (available_memory_bytes : ℤ) (available_thread_count : ℤ) : ℤ × ℤ × ℤ :=
  let min_memory := process_memory * 1024 * 1024 * 1024
  let min_threads := process_threads
  let available_memory := pyRound ((available_memory_bytes : ℚ) / 1024 / 1024 / 1024)
  let possible_jobs_memory := available_memory.fdiv min_memory
  let possible_jobs_threads := available_thread_count.fdiv min_threads
  let number_of_jobs := min possible_jobs_memory possible_jobs_threads
  let number_of_jobs := if number_of_jobs = 0 then 1 else number_of_jobs
  (number_of_jobs, available_memory, available_thread_count)

/-- Spec-side job count, from the spec's words (section 5, resource
preflight): `min(avail_mem_gb / min_mem_per_job, avail_threads /
min_threads_per_job)`, clamped to 1 when the minimum is 0. -/
def spec_num_jobs (min_mem_gb_per_job min_threads_per_job : ℤ)
    (avail_mem_gb avail_thread_count : ℤ) : ℤ :=
  let n := min (avail_mem_gb.fdiv min_mem_gb_per_job)
    (avail_thread_count.fdiv min_threads_per_job)
  if n = 0 then 1 else n

/-! ### Output assembler (falconz.py:249-261, image_conversion.py:256-267) -/

/-- The files present in the moco directory when `merge3d` runs
(src/falconz/falconz.py:229-261): the aligned `moco_` outputs for every
moving frame (frames from the start index on, reference excluded), the
`moco_`-prefixed copy of the reference, and the `moco_`-prefixed copies of
the non-moco frames (frames before the start index). -/
def moco_dir_contents (org_nifti_files : List String) (reference_file : String)
    (start_frame : ℕ) : List String :=
  let moving_frames := (org_nifti_files.drop start_frame).erase reference_file
  let non_moco_frames := org_nifti_files.take start_frame
  moving_frames.map (fun f => MOCO_TAG ++ f)
    ++ [MOCO_TAG ++ reference_file]
    ++ non_moco_frames.map (fun f => MOCO_TAG ++ f)

/-- Embedding of `image_conversion.merge3d` (src/falconz/image_conversion.py:256-267)
called with wildcard `moco_*`: the frames concatenated into `moco_4D`, in the
order produced by `fop.get_files` — Python `sorted`, i.e. lexicographic. -/
def merge3d (moco_dir_listing : List String) : List String :=
  get_files moco_dir_listing MOCO_TAG ""

/-! ### Start-frame sentinel (falconz.py:79-85, 208-215; display.py:121-124) -/

/-- The start-frame decision in `main` (src/falconz/falconz.py:208-215):
`start_frame = args.start_frame`, replaced by the automatic selection exactly
when the argument equals 99 (the argparse default). A crashed automatic
selection (`none`) propagates. -/
def main_select_start_frame (start_frame_arg : ℤ) (auto_result : Option ℕ) : Option ℤ :=
  if start_frame_arg = 99 then auto_result.map (fun n => (n : ℤ)) else some start_frame_arg

/-- Embedding of `display.derived_parameters` (src/falconz/display.py:121-124): the
"calculated on the fly" warning is printed exactly when the start-frame
argument equals 99. -/
def derived_parameters_warns_auto (start_frame_arg : ℤ) : Bool :=
  decide (start_frame_arg = 99)

/-! ### Helper lemmas -/

/-- Index lists produced from `enumFrom n` are the shifted index lists from
`enumFrom 0`. -/
theorem enumFrom_filter_map_fst {α : Type} (p : α → Bool) (l : List α) : ∀ n : ℕ,
    ((l.enumFrom n).filter (fun q => p q.2)).map Prod.fst
      = (((l.enumFrom 0).filter (fun q => p q.2)).map Prod.fst).map (n + ·) := by
  induction l with
  | nil => intro n; simp
  | cons a l ih =>
    intro n
    simp only [List.enumFrom_cons, List.filter_cons]
    cases hp : p a
    · simp only [hp, Bool.false_eq_true, if_false, ih (n + 1), ih 1, List.map_map]
      apply List.map_congr_left
      intro q hq
      simp only [Function.comp_apply]
      omega
    · simp only [hp, if_true, List.map_cons, ih (n + 1), ih 1, List.map_map]
      refine congrArg₂ List.cons (by omega) ?_
      apply List.map_congr_left
      intro q hq
      simp only [Function.comp_apply]
      omega

/-- The `[i for i, v in enumerate(xs) if cond(v)][0]` idiom, composed with a
lookup into the pre-image list: taking the first index of a mapped list whose
value passes `p`, and indexing the original list with it, finds the first
element whose image passes `p`. -/
theorem first_index_bind_get {α β : Type} (l : List α) (f : α → β) (p : β → Bool) :
    (((((l.map f).enum.filter (fun q => p q.2)).map Prod.fst).head?).bind
        fun i => l.get? i)
      = l.find? (fun a => p (f a)) := by
  induction l with
  | nil => simp [List.enum]
  | cons a l ih =>
    simp only [List.enum] at ih
    simp only [List.map_cons, List.enum, List.enumFrom_cons, List.filter_cons, List.find?_cons]
    cases hp : p (f a)
    · rw [← ih]
      simp only [hp, Bool.false_eq_true, if_false,
        enumFrom_filter_map_fst p (l.map f) 1, List.head?_map]
      cases hh : (((l.map f).enumFrom 0).filter (fun q => p q.2)).head? with
      | none => rfl
      | some q =>
        simp only [Option.map_some', Option.some_bind]
        have h1 : 1 + q.1 = q.1 + 1 := by omega
        rw [h1]
        rfl
    · simp [hp]

/-- When some element of `l` satisfies `p`, the first-matching-index idiom
yields an index below `l.length`. -/
theorem first_index_lt_length {α : Type} (l : List α) (p : α → Bool)
    (h : ∃ x ∈ l, p x = true) :
    ∃ i, ((l.enum.filter (fun q => p q.2)).map Prod.fst).head? = some i ∧ i < l.length := by
  induction l with
  | nil => simp at h
  | cons a l ih =>
    simp only [List.enum, List.enumFrom_cons, List.filter_cons]
    cases hp : p a
    · obtain ⟨x, hx, hpx⟩ := h
      rcases List.mem_cons.mp hx with rfl | hxl
      · rw [hpx] at hp; exact absurd hp (by simp)
      · obtain ⟨i, hi, hlen⟩ := ih ⟨x, hxl, hpx⟩
        simp only [List.enum] at hi
        refine ⟨1 + i, ?_, ?_⟩
        · simp only [hp, Bool.false_eq_true, if_false,
            enumFrom_filter_map_fst p l 1, List.head?_map]
          rw [List.head?_map] at hi
          cases hh : ((l.enumFrom 0).filter (fun q => p q.2)).head? with
          | none => rw [hh] at hi; simp at hi
          | some q =>
            rw [hh] at hi
            simp only [Option.map_some'] at hi ⊢
            rw [Option.some_inj.mp hi]
        · simp only [List.length_cons]; omega
    · exact ⟨0, by simp [hp], Nat.succ_pos _⟩

/-- Every name written by the NCC sweep matches the `ncc_*.nii.gz` glob. -/
theorem glob_match_ncc_image (c : String) :
    glob_match "ncc_" ".nii.gz" (ncc_image_name c) = true := by
  simp only [glob_match, ncc_image_name, String.data_append, Bool.and_eq_true,
    decide_eq_true_eq]
  refine ⟨⟨?_, ?_⟩, ?_⟩
  · rw [ List.isPrefixOf_iff_prefix, List.append_assoc]
    exact List.prefix_append _ _
  · rw [List.isSuffixOf_iff_suffix]
    exact List.suffix_append _ _
  · simp only [List.length_append]
    omega

/-- A listing that is strictly sorted and all of whose names match the glob is
returned unchanged by `get_files`. -/
theorem get_files_eq_self {listing : List String} {pre suf : String}
    (hmatch : ∀ x ∈ listing, glob_match pre suf x = true)
    (hsorted : listing.Pairwise pyStrLt) :
    get_files listing pre suf = listing := by
  unfold get_files
  rw [List.filter_eq_self.mpr hmatch]
  exact List.Sorted.insertionSort_eq (hsorted.imp fun h => le_of_lt h)

/-- The listing function `get_files` depends on the directory only through the set of names in it:
permuting the on-disk listing does not change the sorted result. -/
theorem get_files_perm {l₁ l₂ : List String} (pre suf : String) (h : List.Perm l₁ l₂) :
    get_files l₁ pre suf = get_files l₂ pre suf := by
  refine List.eq_of_perm_of_sorted ?_ (List.sorted_insertionSort _ _)
    (List.sorted_insertionSort _ _)
  exact (List.perm_insertionSort _ _).trans
    ((h.filter _).trans (List.perm_insertionSort _ _).symm)

/-- Prepending a fixed string preserves the Python string order strictly. -/
theorem pyStrLt_append_left (p : String) {a b : String} (h : pyStrLt a b) :
    pyStrLt (p ++ a) (p ++ b) := by
  show (p ++ a).data < (p ++ b).data
  rw [String.data_append, String.data_append]
  exact List.Lex.append_left _ h p.data

/-- A nonempty list of rationals has a maximal element. -/
theorem exists_list_max (l : List ℚ) (h : l ≠ []) : ∃ m ∈ l, ∀ x ∈ l, x ≤ m := by
  induction l with
  | nil => exact absurd rfl h
  | cons a l ih =>
    rcases eq_or_ne l [] with rfl | hl
    · exact ⟨a, by simp⟩
    · obtain ⟨m, hm, hmax⟩ := ih hl
      rcases le_total a m with hle | hle
      · exact ⟨m, List.mem_cons_of_mem _ hm, by
          intro x hx
          rcases List.mem_cons.mp hx with rfl | hx
          · exact hle
          · exact hmax x hx⟩
      · exact ⟨a, List.mem_cons_self _ _, by
          intro x hx
          rcases List.mem_cons.mp hx with rfl | hx
          · exact le_refl x
          · exact (hmax x hx).trans hle⟩

/-- The code anchor never exceeds the largest mean intensity, provided all
intensities are nonnegative (clipped NCC means are). -/
theorem max_observed_ncc_le_max {ms : List ℚ} {m : ℚ}
    (hnn : 0 ≤ m) (hmax : ∀ x ∈ ms, x ≤ m) :
    max_observed_ncc ms ≤ m := by
  unfold max_observed_ncc
  have hsub : ∀ x ∈ (List.insertionSort (fun a b : ℚ => b ≤ a) ms).take 3, x ≤ m := by
    intro x hx
    exact hmax x ((List.perm_insertionSort _ ms).mem_iff.mp (List.mem_of_mem_take hx))
  have hlen : ((List.insertionSort (fun a b : ℚ => b ≤ a) ms).take 3).length ≤ 3 :=
    le_trans (List.length_take_le _ _) (le_refl _)
  have hsum := List.sum_le_card_nsmul _ m hsub
  have : ((List.insertionSort (fun a b : ℚ => b ≤ a) ms).take 3).length • m ≤ 3 * m := by
    rw [nsmul_eq_mul]
    have := hlen
    have h3 : (((List.insertionSort (fun a b : ℚ => b ≤ a) ms).take 3).length : ℚ) ≤ 3 := by
      exact_mod_cast hlen
    nlinarith
  linarith [le_trans hsum this]

/-- When the candidate listing is strictly sorted and the `ncc_` naming is
strictly monotone on it (both hold for the canonical `volNNNN.nii.gz`
sequences the normalizer produces), the selector retrieves exactly the first
candidate, in candidate order, whose mean NCC intensity beats the threshold:
the sorted re-listing of the `ncc-images` directory re-aligns with the
candidate list index for index. -/
theorem selector_eq_find_of_sorted (candidate_files : List String) (μ : String → ℚ)
    (njobs : ℕ)
    (hsorted : candidate_files.Pairwise pyStrLt)
    (hmono : ∀ a ∈ candidate_files, ∀ b ∈ candidate_files,
      pyStrLt a b → pyStrLt (ncc_image_name a) (ncc_image_name b)) :
    determine_candidate_frames candidate_files μ njobs
        (candidate_files.map ncc_image_name)
      = candidate_files.find? (fun c =>
          decide (NCC_THRESHOLD
              * max_observed_ncc (candidate_files.map (fun c => μ (ncc_image_name c)))
            < μ (ncc_image_name c))) := by
  have hmatch : ∀ x ∈ candidate_files.map ncc_image_name,
      glob_match "ncc_" ".nii.gz" x = true := by
    intro x hx
    obtain ⟨c, _, rfl⟩ := List.mem_map.mp hx
    exact glob_match_ncc_image c
  have hsorted' : (candidate_files.map ncc_image_name).Pairwise pyStrLt :=
    List.pairwise_map.mpr
      (hsorted.imp_of_mem fun ha hb hab => hmono _ ha _ hb hab)
  simp only [determine_candidate_frames]
  rw [get_files_eq_self hmatch hsorted']
  rw [List.map_map]
  simp only [Function.comp_def]
  exact first_index_bind_get candidate_files (fun c => μ (ncc_image_name c))
    (fun x => decide (NCC_THRESHOLD
        * max_observed_ncc (candidate_files.map (fun c => μ (ncc_image_name c))) < x))

/-- C1: for a run with automatic start-frame detection, the driver returns
the index, in the full original frame sequence, of the first candidate (in
index order, reference excluded) whose mean clipped-NCC intensity strictly
exceeds `NCC_THRESHOLD` times the anchor, ties broken by earliest position —
i.e. the code path equals the spec-side definition. Hypotheses: the split
directory listing is strictly sorted (Python `sorted` output over distinct
filenames) and the `ncc_<stem>.nii.gz` renaming preserves the strict order
(true for the canonical same-extension `volNNNN` names). -/
theorem C1_auto_start_frame_matches_spec (org : List String) (reference_frame_index : ℤ)
    (ref : String) (μ : String → ℚ) (njobs : ℕ)
    (href : py_list_index org reference_frame_index = some ref)
    (hsorted : org.Pairwise pyStrLt)
    (hmono : ∀ a ∈ org, ∀ b ∈ org,
      pyStrLt a b → pyStrLt (ncc_image_name a) (ncc_image_name b)) :
    main_auto_start_frame org reference_frame_index μ njobs
        ((org.erase ref).map ncc_image_name)
      = spec_start_frame org reference_frame_index μ := by
  unfold main_auto_start_frame spec_start_frame
  rw [href]
  simp only [Option.some_bind]
  rw [selector_eq_find_of_sorted (org.erase ref) μ njobs
    (List.Pairwise.sublist (List.erase_sublist _ _) hsorted)
    (fun a ha b hb hab =>
      hmono a (List.erase_subset _ _ ha) b (List.erase_subset _ _ hb) hab)]

/-- C1 witness: a concrete three-frame sequence with the last frame as
reference, all hypotheses discharged by evaluation. -/
theorem C1_witness :
    main_auto_start_frame ["vol0000.nii.gz", "vol0001.nii.gz", "vol0002.nii.gz"] (-1)
        (fun _ => 1) 4
        ((["vol0000.nii.gz", "vol0001.nii.gz", "vol0002.nii.gz"].erase
            "vol0002.nii.gz").map ncc_image_name)
      = spec_start_frame ["vol0000.nii.gz", "vol0001.nii.gz", "vol0002.nii.gz"] (-1)
        (fun _ => 1) :=
  C1_auto_start_frame_matches_spec
    ["vol0000.nii.gz", "vol0001.nii.gz", "vol0002.nii.gz"] (-1) "vol0002.nii.gz"
    (fun _ => 1) 4 (by decide) (by decide) (by decide)

/-- C2 counterexample: with the two mean intensities 9 and 6 (fewer than 3
candidates), the code anchor is `(9 + 6) / 3 = 5`, not the maximum 9 the
claim states (the spec-side `spec_anchor` takes the maximum there). -/
theorem C2_anchor_counterexample :
    max_observed_ncc [9, 6] = 5 ∧ spec_anchor [9, 6] = 9
      ∧ max_observed_ncc [9, 6] ≠ spec_anchor [9, 6] := by
  refine ⟨?_, ?_, ?_⟩ <;>
    norm_num [max_observed_ncc, spec_anchor, List.insertionSort, List.orderedInsert]

/-- C2 amended: the anchor always divides the sum of the top `min(3, k)` mean
intensities by the literal 3; with at least 3 candidates this is the
arithmetic mean of the top 3 (as claimed), but with fewer than 3 candidates
it is the sum of all intensities divided by 3, not their maximum. -/
theorem C2_anchor_divides_by_three (ms : List ℚ) :
    (3 ≤ ms.length → max_observed_ncc ms = spec_anchor ms)
      ∧ (ms.length < 3 → max_observed_ncc ms = ms.sum / 3) := by
  constructor
  · intro h
    rw [max_observed_ncc, spec_anchor, if_pos h]
  · intro h
    unfold max_observed_ncc
    have hlen : (List.insertionSort (fun a b : ℚ => b ≤ a) ms).length ≤ 3 := by
      rw [List.length_insertionSort]; omega
    rw [List.take_of_length_le hlen, (List.perm_insertionSort _ ms).sum_eq]

/-- C2 witness: the amended statement applied at the concrete two-element
intensity list. -/
theorem C2_witness :
    ([9, 6] : List ℚ).length < 3 ∧ max_observed_ncc [9, 6] = ([9, 6] : List ℚ).sum / 3 :=
  ⟨by decide, (C2_anchor_divides_by_three [9, 6]).2 (by decide)⟩

/-- C3 counterexample: a non-empty candidate set on which every mean clipped
NCC intensity is 0. No intensity strictly exceeds `τ · M = 0`, the
comprehension is empty, `candidate_frames[0]` raises IndexError (modelled
`none`): the selector fails instead of returning the highest-`m_c`
candidate. -/
theorem C3_all_zero_counterexample :
    determine_candidate_frames ["vol0000.nii.gz"] (fun _ => 0) 1
      (["vol0000.nii.gz"].map ncc_image_name) = none := by
  have h1 : get_files (["vol0000.nii.gz"].map ncc_image_name) "ncc_" ".nii.gz"
      = ["ncc_vol0000.nii.gz"] := by decide
  unfold determine_candidate_frames
  rw [h1]
  norm_num [max_observed_ncc, List.insertionSort, List.orderedInsert, List.enum,
    List.enumFrom, NCC_THRESHOLD]

/-- C3 amended: the selector does return a result whenever some candidate's
mean clipped-NCC intensity is strictly positive (the top intensity then beats
`τ · M` because `M` never exceeds the maximum and `τ = 1/2 < 1`). There is,
however, no highest-`m_c` fallback in the code: when every intensity is zero
the selector fails (see the counterexample). -/
theorem C3_selector_succeeds_on_positive_ncc (candidate_files : List String)
    (μ : String → ℚ) (njobs : ℕ)
    (hpos : ∃ c ∈ candidate_files, 0 < μ (ncc_image_name c)) :
    (determine_candidate_frames candidate_files μ njobs
      (candidate_files.map ncc_image_name)).isSome = true := by
  have hfilter : (candidate_files.map ncc_image_name).filter (glob_match "ncc_" ".nii.gz")
      = candidate_files.map ncc_image_name := by
    refine List.filter_eq_self.mpr ?_
    intro x hx
    obtain ⟨c, _, rfl⟩ := List.mem_map.mp hx
    exact glob_match_ncc_image c
  have hSperm : List.Perm
      (get_files (candidate_files.map ncc_image_name) "ncc_" ".nii.gz")
      (candidate_files.map ncc_image_name) := by
    unfold get_files
    rw [hfilter]
    exact List.perm_insertionSort _ _
  set ms := (get_files (candidate_files.map ncc_image_name) "ncc_" ".nii.gz").map μ
    with hms_def
  have hms_perm : List.Perm ms ((candidate_files.map ncc_image_name).map μ) :=
    hSperm.map μ
  have hvals : ∀ x ∈ ms, ∃ c ∈ candidate_files, x = μ (ncc_image_name c) := by
    intro x hx
    have hx' := hms_perm.mem_iff.mp hx
    rw [List.map_map] at hx'
    obtain ⟨c, hc, rfl⟩ := List.mem_map.mp hx'
    exact ⟨c, hc, rfl⟩
  obtain ⟨c₀, hc₀, hc₀pos⟩ := hpos
  have hc₀mem : μ (ncc_image_name c₀) ∈ ms := by
    refine hms_perm.mem_iff.mpr ?_
    rw [List.map_map]
    exact List.mem_map.mpr ⟨c₀, hc₀, rfl⟩
  have hne : ms ≠ [] := List.ne_nil_of_mem hc₀mem
  obtain ⟨m₀, hm₀mem, hm₀max⟩ := exists_list_max ms hne
  have hm₀pos : 0 < m₀ := lt_of_lt_of_le hc₀pos (hm₀max _ hc₀mem)
  have hanchor : max_observed_ncc ms ≤ m₀ :=
    max_observed_ncc_le_max (le_of_lt hm₀pos) hm₀max
  have hlt : NCC_THRESHOLD * max_observed_ncc ms < m₀ := by
    rw [NCC_THRESHOLD]
    nlinarith
  obtain ⟨i, hhead, hilen⟩ := first_index_lt_length ms
    (fun x => decide (NCC_THRESHOLD * max_observed_ncc ms < x))
    ⟨m₀, hm₀mem, by simpa using hlt⟩
  have hlen : ms.length = candidate_files.length := by
    rw [hms_def, List.length_map, hSperm.length_eq, List.length_map]
  simp only [determine_candidate_frames, ← hms_def, hhead, Option.some_bind]
  cases hget : candidate_files.get? i with
  | none =>
    have := List.get?_eq_none.mp hget
    omega
  | some c => simp [hget]

/-- C3 witness: one candidate with strictly positive intensity; the selector
returns a result. -/
theorem C3_witness :
    (determine_candidate_frames ["vol0000.nii.gz"] (fun _ => 1) 1
      (["vol0000.nii.gz"].map ncc_image_name)).isSome = true :=
  C3_selector_succeeds_on_positive_ncc ["vol0000.nii.gz"] (fun _ => 1) 1
    ⟨"vol0000.nii.gz", by decide, by norm_num⟩

/-- C9: automatic start-frame selection is deterministic. The NCC worker
pool's return value is discarded and the scratch directory is re-listed and
sorted, so any two completion orders of the per-candidate NCC tasks (any two
permutations of the written file set) and any two worker counts produce the
same start index. -/
theorem C9_selector_deterministic (org : List String) (reference_frame_index : ℤ)
    (ref : String) (μ : String → ℚ) (njobs₁ njobs₂ : ℕ)
    (written₁ written₂ : List String)
    (href : py_list_index org reference_frame_index = some ref)
    (h₁ : List.Perm written₁ ((org.erase ref).map ncc_image_name))
    (h₂ : List.Perm written₂ ((org.erase ref).map ncc_image_name)) :
    main_auto_start_frame org reference_frame_index μ njobs₁ written₁
      = main_auto_start_frame org reference_frame_index μ njobs₂ written₂ := by
  unfold main_auto_start_frame
  rw [href]
  simp only [Option.some_bind, determine_candidate_frames]
  rw [get_files_perm "ncc_" ".nii.gz" (h₁.trans h₂.symm)]

/-- C9 witness: two opposite completion orders of the NCC writes and two
worker counts; the computed start frame coincides. -/
theorem C9_witness :
    main_auto_start_frame ["vol0000.nii.gz", "vol0001.nii.gz"] (-1) (fun _ => 1) 4
        ["ncc_vol0000.nii.gz"]
      = main_auto_start_frame ["vol0000.nii.gz", "vol0001.nii.gz"] (-1) (fun _ => 1) 2
        ["ncc_vol0000.nii.gz"] :=
  C9_selector_deterministic ["vol0000.nii.gz", "vol0001.nii.gz"] (-1) "vol0001.nii.gz"
    (fun _ => 1) 4 2 ["ncc_vol0000.nii.gz"] ["ncc_vol0000.nii.gz"]
    (by decide) (by decide) (by decide)

/-- C4 counterexample: a run in which every subprocess exits 1 with stderr
output is indistinguishable, through the scheduler's results, from a run in
which every subprocess succeeds, and the pipeline's exit code after alignment
is 0, not 4: no frame is recorded as failed, no stderr is kept, no failure
set is surfaced. -/
theorem C4_failure_invisible_counterexample :
    align (fun _ => (1, "registration failed")) "greedy" "vol0003.nii.gz"
        ["vol0000.nii.gz"] "rigid" "100x25x10" "moco-dir"
      = align (fun _ => (0, "")) "greedy" "vol0003.nii.gz"
        ["vol0000.nii.gz"] "rigid" "100x25x10" "moco-dir"
    ∧ main_alignment_exit_code (fun _ => (1, "registration failed")) "greedy"
        "vol0003.nii.gz" ["vol0000.nii.gz"] "rigid" "100x25x10" "moco-dir" = 0
    ∧ (0 : ℤ) ≠ 4 :=
  ⟨rfl, rfl, by decide⟩

/-- C4 amended: non-zero exits from the register or resample steps are
silently ignored. Each per-frame task discards the `subprocess.run` result
and returns the constant 1, so the scheduler's output is `[1, 1, ...]`
whatever the subprocess environment does, no failure set exists, the merge
over whatever `moco_` files were produced always runs, and the exit code
stays 0. -/
theorem C4_alignment_ignores_subprocess_failures (env : SubprocessEnv)
    (greedy_path fixed_img : String) (moving_imgs : List String)
    (registration_type multi_resolution_iterations moco_dir : String) :
    align env greedy_path fixed_img moving_imgs registration_type
        multi_resolution_iterations moco_dir
      = List.replicate moving_imgs.length 1
    ∧ main_alignment_exit_code env greedy_path fixed_img moving_imgs registration_type
        multi_resolution_iterations moco_dir = 0 := by
  constructor
  · calc align env greedy_path fixed_img moving_imgs registration_type
          multi_resolution_iterations moco_dir
        = moving_imgs.map (fun _ => (1 : ℤ)) := List.map_congr_left (fun m _ => rfl)
      _ = List.replicate moving_imgs.length 1 := List.map_const' _ _
  · rfl

/-- C5 counterexample: an input that normalizes to exactly one 3-D volume
makes the driver exit with code 1 (the `except NiftiConverterError` handler
calls `sys.exit(1)`), not with the claimed ingestion code 2. -/
theorem C5_exit_code_counterexample :
    main_standardization_step ["vol0000.nii.gz"] = PipelineOutcome.exited 1
    ∧ PipelineOutcome.exited 1 ≠ PipelineOutcome.exited 2 :=
  ⟨rfl, by decide⟩

/-- C5 amended: for every input directory that normalizes to exactly one 3-D
volume, ingestion fails with `InsufficientInput` and the pipeline terminates
with exit code 1 — not 2 — without proceeding to alignment (the outcome is
`exited`, so no frames are handed to the motion-correction section). -/
theorem C5_single_frame_ingestion_exits_one (normalized_frames : List String)
    (h : normalized_frames.length = 1) :
    nifti_converter normalized_frames
        = Except.error NiftiConverterError.InsufficientInput
    ∧ main_standardization_step normalized_frames = PipelineOutcome.exited 1 := by
  refine ⟨?_, ?_⟩ <;> simp [nifti_converter, main_standardization_step, h]

/-- C5 witness: the single-volume input, hypothesis discharged by
evaluation. -/
theorem C5_witness :
    (["vol0000.nii.gz"] : List String).length = 1
    ∧ main_standardization_step ["vol0000.nii.gz"] = PipelineOutcome.exited 1 :=
  ⟨rfl, (C5_single_frame_ingestion_exits_one ["vol0000.nii.gz"] rfl).2⟩

/-- C6: the estimator divides the available memory in GB by the per-job
minimum converted to BYTES (`process_memory * 1024³`), so the memory quotient
is 0 on any realistic machine and `num_jobs` collapses to the clamp value 1.
At the rigid-paradigm minima with 16 GiB available and 8 threads the code
returns `num_jobs = 1` while the spec formula — and the function's own
`# GB`-commented intent — gives `min(16 / 4, 8 / 2) = 4`. -/
theorem C6_estimator_divides_gb_by_bytes :
    get_number_of_possible_jobs MINIMUM_RAM_REQUIRED_RIGID MINIMUM_THREADS_REQUIRED_RIGID
        17179869184 8 = (1, 16, 8)
    ∧ spec_num_jobs MINIMUM_RAM_REQUIRED_RIGID MINIMUM_THREADS_REQUIRED_RIGID 16 8 = 4
    ∧ (1 : ℤ) ≠ 4 := by
  have hround : pyRound (((17179869184 : ℤ) : ℚ) / 1024 / 1024 / 1024) = 16 := by
    have hq : (((17179869184 : ℤ) : ℚ) / 1024 / 1024 / 1024) = 16 := by norm_num
    rw [hq]
    norm_num [pyRound]
  refine ⟨?_, by decide, by decide⟩
  simp only [get_number_of_possible_jobs, MINIMUM_RAM_REQUIRED_RIGID,
    MINIMUM_THREADS_REQUIRED_RIGID, hround]
  decide

/-- C7: in a deformable job the affine step is the first engine invocation
and its output matrix (its `-o` argument) is handed to the deformable step as
the `-it` initialization; the subsequent resample command carries the
transforms in the order warp then affine at the end of the command line. -/
theorem C7_deformable_transform_order (greedy_path fixed_img moving_img
    multi_resolution_iterations resampled_moving_img : String) :
    (registration_invocations "deformable" greedy_path fixed_img moving_img none
          multi_resolution_iterations).head?
        = some (affine_cmd greedy_path fixed_img moving_img none
            multi_resolution_iterations (transform_files_of moving_img))
    ∧ (" -o " ++ re_escape (transform_files_of moving_img).affine).data
        <:+: (affine_cmd greedy_path fixed_img moving_img none
            multi_resolution_iterations (transform_files_of moving_img)).data
    ∧ (" -it " ++ re_escape (transform_files_of moving_img).affine).data
        <:+: (deformable_reg_cmd greedy_path fixed_img moving_img none
            multi_resolution_iterations (transform_files_of moving_img)).data
    ∧ ∃ cmd, resample_cmd "deformable" greedy_path fixed_img moving_img
          resampled_moving_img "" "" (transform_files_of moving_img) = some cmd
        ∧ (" -r " ++ re_escape (transform_files_of moving_img).warp ++ " -r "
            ++ re_escape (transform_files_of moving_img).affine).data <:+ cmd.data := by
  refine ⟨by simp [registration_invocations], ?_, ?_, ?_⟩
  · refine ⟨(greedy_path ++ " -d 3 -a -i " ++ re_escape fixed_img ++ " "
      ++ re_escape moving_img ++ " " ++ mask_cmd none
      ++ " -ia-image-centers -dof 12").data,
      (" -n " ++ multi_resolution_iterations ++ " -m " ++ COST_FUNCTION).data, ?_⟩
    simp [affine_cmd, String.data_append, List.append_assoc]
  · refine ⟨(greedy_path ++ " -d 3 -m " ++ COST_FUNCTION ++ " -i " ++ re_escape fixed_img
      ++ " " ++ re_escape moving_img ++ " " ++ mask_cmd none).data,
      (" -o " ++ re_escape (transform_files_of moving_img).warp ++ " -oinv "
        ++ re_escape (transform_files_of moving_img).inverse_warp ++ " -sv -n "
        ++ multi_resolution_iterations).data, ?_⟩
    simp [deformable_reg_cmd, String.data_append, List.append_assoc]
  · refine ⟨build_cmd greedy_path fixed_img moving_img resampled_moving_img "" ""
      [(transform_files_of moving_img).warp, (transform_files_of moving_img).affine],
      by simp [resample_cmd], ?_⟩
    refine ⟨(greedy_path ++ " -d 3 -rf " ++ re_escape fixed_img ++ " -ri LINEAR -rm "
      ++ re_escape moving_img ++ " " ++ re_escape resampled_moving_img).data, ?_⟩
    simp [build_cmd, List.foldl, String.data_append, List.append_assoc]

/-- C8 counterexample: two 3-D input files whose names are not zero-padded.
The code merges in lexicographic order (`moco_vol10` before `moco_vol2`),
whereas the claimed natural-numeric filename order puts `moco_vol2` (key 2)
before `moco_vol10` (key 10). -/
theorem C8_merge_order_counterexample :
    merge3d (moco_dir_contents ["vol10.nii", "vol2.nii"] "vol2.nii" 0)
        = ["moco_vol10.nii", "moco_vol2.nii"]
    ∧ natural_numeric_sorted (moco_dir_contents ["vol10.nii", "vol2.nii"] "vol2.nii" 0)
        = ["moco_vol2.nii", "moco_vol10.nii"]
    ∧ (["moco_vol10.nii", "moco_vol2.nii"] : List String)
        ≠ ["moco_vol2.nii", "moco_vol10.nii"] :=
  ⟨by decide, by decide, by decide⟩

/-- Every `moco_`-prefixed name matches the `moco_*` glob. -/
theorem glob_match_moco (f : String) : glob_match MOCO_TAG "" (MOCO_TAG ++ f) = true := by
  simp only [glob_match, String.data_append, Bool.and_eq_true, decide_eq_true_eq]
  refine ⟨⟨?_, ?_⟩, ?_⟩
  · rw [ List.isPrefixOf_iff_prefix]
    exact List.prefix_append _ _
  · rw [List.isSuffixOf_iff_suffix]
    exact List.nil_suffix
  · simp only [List.length_append]
    exact Nat.add_le_add_left (Nat.zero_le _) _

/-- C8 amended: for every valid configuration (strictly sorted distinct
listing, reference at or after the start index), the merged 4-D output is
exactly the original sequence with the `moco_` prefix, in lexicographic
(Python `sorted`) filename order — which coincides with natural-numeric order
for the canonical zero-padded `volNNNN` names, but not in general — and in
particular it has exactly N time points. -/
theorem C8_merge_full_length (org_nifti_files : List String) (reference_file : String)
    (start_frame : ℕ)
    (hsorted : org_nifti_files.Pairwise pyStrLt)
    (href : reference_file ∈ org_nifti_files.drop start_frame) :
    merge3d (moco_dir_contents org_nifti_files reference_file start_frame)
        = org_nifti_files.map (fun f => MOCO_TAG ++ f)
    ∧ (merge3d (moco_dir_contents org_nifti_files reference_file start_frame)).length
        = org_nifti_files.length := by
  have hperm0 : List.Perm
      (((org_nifti_files.drop start_frame).erase reference_file ++ [reference_file])
        ++ org_nifti_files.take start_frame)
      org_nifti_files := by
    have h1 : List.Perm
        ((org_nifti_files.drop start_frame).erase reference_file ++ [reference_file])
        (org_nifti_files.drop start_frame) :=
      (List.perm_append_singleton _ _).trans (List.perm_cons_erase href).symm
    have h3 : List.Perm
        (org_nifti_files.drop start_frame ++ org_nifti_files.take start_frame)
        org_nifti_files := by
      have h4 := @List.perm_append_comm String (org_nifti_files.drop start_frame)
        (org_nifti_files.take start_frame)
      rwa [List.take_append_drop] at h4
    exact (h1.append_right _).trans h3
  have hperm : List.Perm (moco_dir_contents org_nifti_files reference_file start_frame)
      (org_nifti_files.map (fun f => MOCO_TAG ++ f)) := by
    unfold moco_dir_contents
    have : (((org_nifti_files.drop start_frame).erase reference_file).map
          (fun f => MOCO_TAG ++ f))
        ++ [MOCO_TAG ++ reference_file]
        ++ (org_nifti_files.take start_frame).map (fun f => MOCO_TAG ++ f)
      = ((((org_nifti_files.drop start_frame).erase reference_file ++ [reference_file])
          ++ org_nifti_files.take start_frame).map (fun f => MOCO_TAG ++ f)) := by
      simp [List.map_append]
    rw [this]
    exact hperm0.map _
  have hmatch : ∀ x ∈ moco_dir_contents org_nifti_files reference_file start_frame,
      glob_match MOCO_TAG "" x = true := by
    intro x hx
    obtain ⟨f, _, rfl⟩ := List.mem_map.mp (hperm.mem_iff.mp hx)
    exact glob_match_moco f
  have hsorted_target : (org_nifti_files.map (fun f => MOCO_TAG ++ f)).Pairwise pyStrLt :=
    List.pairwise_map.mpr (hsorted.imp (pyStrLt_append_left MOCO_TAG))
  have hmain : merge3d (moco_dir_contents org_nifti_files reference_file start_frame)
      = org_nifti_files.map (fun f => MOCO_TAG ++ f) := by
    unfold merge3d get_files
    rw [List.filter_eq_self.mpr hmatch]
    exact List.eq_of_perm_of_sorted ((List.perm_insertionSort _ _).trans hperm)
      (List.sorted_insertionSort _ _) (hsorted_target.imp fun h => le_of_lt h)
  exact ⟨hmain, by rw [hmain, List.length_map]⟩

/-- C8 witness: two canonical zero-padded frames, reference last, start 0. -/
theorem C8_witness :
    merge3d (moco_dir_contents ["vol0000.nii.gz", "vol0001.nii.gz"] "vol0001.nii.gz" 0)
        = ["vol0000.nii.gz", "vol0001.nii.gz"].map (fun f => MOCO_TAG ++ f)
    ∧ (merge3d (moco_dir_contents ["vol0000.nii.gz", "vol0001.nii.gz"]
          "vol0001.nii.gz" 0)).length
        = (["vol0000.nii.gz", "vol0001.nii.gz"] : List String).length :=
  C8_merge_full_length ["vol0000.nii.gz", "vol0001.nii.gz"] "vol0001.nii.gz" 0
    (by decide) (by decide)

/-- C10: the driver switches to automatic start-frame detection exactly when
the start-frame argument equals the integer sentinel 99 (the argparse
default): an explicit `--start_frame 99` is indistinguishable from omitting
the flag, the auto-detection warning is printed iff the argument is 99, and
whenever the automatic result differs from 99 there is no way to obtain an
explicit start at frame index 99. -/
theorem C10_sentinel_99_triggers_auto (auto_result : Option ℕ) (s : ℤ) :
    main_select_start_frame 99 auto_result = auto_result.map (fun n => (n : ℤ))
    ∧ (s ≠ 99 → main_select_start_frame s auto_result = some s)
    ∧ (derived_parameters_warns_auto s = true ↔ s = 99)
    ∧ (∀ n : ℕ, auto_result = some n → (n : ℤ) ≠ 99 →
        main_select_start_frame 99 auto_result ≠ some 99) := by
  have hauto : main_select_start_frame 99 auto_result
      = auto_result.map (fun n => (n : ℤ)) := by
    simp [main_select_start_frame]
  refine ⟨hauto,
    fun h => by simp [main_select_start_frame, h],
    by simp [derived_parameters_warns_auto], ?_⟩
  intro n hn hne
  rw [hauto, hn]
  intro hcontra
  exact hne (by simpa using hcontra)

/-- C10 witness: the sentinel with a concrete automatic result 3 and a
concrete explicit argument 7. -/
theorem C10_witness :
    main_select_start_frame 99 (some 3) = (some 3).map (fun n => (n : ℤ))
    ∧ main_select_start_frame 7 (some 3) = some 7
    ∧ (derived_parameters_warns_auto 7 = true ↔ (7 : ℤ) = 99)
    ∧ main_select_start_frame 99 (some 3) ≠ some 99 := by
  obtain ⟨h1, h2, h3, h4⟩ := C10_sentinel_99_triggers_auto (some 3) 7
  exact ⟨h1, h2 (by decide), h3, h4 3 rfl (by decide)⟩

end Falconz
